import Mathlib

/-!
Shallow embedding of the execution core of a container runtime daemon:
the gRPC-facing container registry `Service` (package execution) and the
per-process supervisor `process` (package runtime), together with proofs
about their behaviour.

File-system reads, pipe opens and backend calls are represented by
oracle arguments describing what the corresponding operation returns;
everything else is translated directly from the Go source.
-/

/-- Errors appearing in the embedded code.  The named containerd errors
get their own constructors; `strconv.Atoi` failures are `parseErr`, and
anonymous I/O or formatted errors are `errStr` carrying their message. -/
inductive GoErr where
  | containerExists
  | containerNotExist
  | unknownRuntime
  | processNotExited
  | parseErr (s : String)
  | errStr (s : String)
deriving DecidableEq

deriving instance DecidableEq for Except

/-- Value of an ASCII decimal digit, as consumed by Go strconv; any
character outside 0-9 has no value. -/
def digitVal (c : Char) : Option Nat :=
  if '0' ≤ c ∧ c ≤ '9' then some (c.toNat - '0'.toNat) else none

/-- The digit loop of Go strconv.ParseInt: fold the digits into an
accumulator (n = n*10 + d), failing on the first non-digit. -/
def parseDigitsAux (acc : Nat) : List Char → Option Nat
  | [] => some acc
  | c :: cs =>
    match digitVal c with
    | some d => parseDigitsAux (acc * 10 + d) cs
    | none => none

/-- Parse a nonempty all-digit run of characters. -/
def parseDigits (l : List Char) : Option Nat :=
  if l = [] then none else parseDigitsAux 0 l

/-- Embedding of Go strconv.Atoi: an optional single sign followed by
decimal digits, the whole string consumed; anything else fails. -/
def atoi (s : String) : Option Int :=
  match s.data with
  | [] => none
  | c :: rest =>
    if c = '-' then (parseDigits rest).map (fun n => -(n : Int))
    else if c = '+' then (parseDigits rest).map (fun n => (n : Int))
    else (parseDigits (c :: rest)).map (fun n => (n : Int))

/-- The ASCII character of a decimal digit. -/
def digitChar (d : Nat) : Char := Char.ofNat ('0'.toNat + d)

/-- Fuelled decimal rendering of a natural number, most significant digit
first, as produced by fmt's %d verb. -/
def goNatReprAux : Nat → Nat → List Char
  | 0, _ => []
  | fuel + 1, n =>
    if n < 10 then [digitChar n]
    else goNatReprAux fuel (n / 10) ++ [digitChar (n % 10)]

/-- Decimal digits of a natural number (fuel n+1 always suffices). -/
def goNatRepr (n : Nat) : List Char := goNatReprAux (n + 1) n

/-- Embedding of fmt %d on a Go int: a minus sign then the decimal digits
of the magnitude for negative values, the plain decimal digits otherwise. -/
def goItoa : Int → String
  | .ofNat n => ⟨goNatRepr n⟩
  | .negSucc m => ⟨'-' :: goNatRepr (m + 1)⟩

/-- The supervisor struct `process`: durable root directory, identifier,
discovered pid (zero value until discovery), and whether the exit and
control pipes are currently held by this supervisor. -/
structure process where
  root : String
  id : String
  pid : Int
  exitPipe : Bool
  controlPipe : Bool
deriving DecidableEq

/-- Bytes written to the control pipe by CloseStdin:
fmt.Fprintf(p.controlPipe, "%d %d %d\n", 0, 0, 0). -/
def process.CloseStdin (_p : process) : String :=
  goItoa 0 ++ " " ++ goItoa 0 ++ " " ++ goItoa 0 ++ "\n"

/-- Bytes written to the control pipe by Resize(w, h):
fmt.Fprintf(p.controlPipe, "%d %d %d\n", 1, w, h). -/
def process.Resize (_p : process) (w h : Int) : String :=
  goItoa 1 ++ " " ++ goItoa w ++ " " ++ goItoa h ++ "\n"

/-- Result of ioutil.ReadFile on a durable artifact: the file may be
absent (os.IsNotExist holds of the error), unreadable for another reason
(carrying that error's message), or present with contents `s`. -/
inductive ReadRes where
  | absent
  | readErr (msg : String)
  | content (s : String)
deriving DecidableEq

/-- Embedding of process.ExitStatus reading the exit-status artifact
whose read outcome is `file`. -/
def process.ExitStatus (_p : process) (file : ReadRes) : Except GoErr Int :=
  match file with
  | .absent => .error .processNotExited
  | .readErr m => .error (.errStr m)
  | .content s =>
    if s = "" then .error .processNotExited
    else
      match atoi s with
      | some n => .ok n
      | none => .error (.parseErr s)

/-- The timeout error of getPid:
fmt.Errorf("containerd: cannot read pid file"). -/
def pidTimeoutErr : GoErr := .errStr "containerd: cannot read pid file"

/-- Milliseconds slept after each absent read of the pid artifact:
time.Sleep(100 * time.Millisecond). -/
def pidSleepMs : Nat := 100

/-- Outcome of process.getPid: the returned value, the supervisor's pid
field afterwards, how many reads of the pid artifact were made and how
many 100 ms sleeps were taken. -/
structure PidOut where
  result : Except GoErr Int
  pid : Int
  readsMade : Nat
  sleeps : Nat
deriving DecidableEq

/-- The retry loop of process.getPid: `reads k` is what the k-th read of
the pid artifact finds, `i` the index of the next attempt, and the fuel
the number of loop iterations still allowed. -/
def getPidAux (reads : Nat → ReadRes) (pid0 : Int) : Nat → Nat → PidOut
  | _, 0 => ⟨.error pidTimeoutErr, pid0, 0, 0⟩
  | i, fuel + 1 =>
    match reads i with
    | .absent =>
      let r := getPidAux reads pid0 (i + 1) fuel
      ⟨r.result, r.pid, r.readsMade + 1, r.sleeps + 1⟩
    | .readErr m => ⟨.error (.errStr m), pid0, 1, 0⟩
    | .content s =>
      match atoi s with
      | some n => ⟨.ok n, n, 1, 0⟩
      | none => ⟨.error (.parseErr s), pid0, 1, 0⟩

/-- Embedding of process.getPid: up to 20 reads of the pid artifact, a
100 ms sleep after each read that found the file absent; on the first
successful parse the pid is recorded on the supervisor. -/
def process.getPid (p : process) (reads : Nat → ReadRes) : PidOut :=
  getPidAux reads p.pid 0 20

/-- Embedding of loadProcess: rebuild a supervisor from durable
artifacts.  `pidReads` drives pid discovery, `exitFile` is the read of
the exit-status artifact, and `exitPipeOpen` the result of reopening the
exit pipe. -/
def loadProcess (root id : String) (pidReads : Nat → ReadRes) (exitFile : ReadRes)
    (exitPipeOpen : Except GoErr Unit) : Except GoErr process :=
  let p0 : process := ⟨root, id, 0, false, false⟩
  let g := p0.getPid pidReads
  match g.result with
  | .error e => .error e
  | .ok _ =>
    let p1 : process := { p0 with pid := g.pid }
    match p1.ExitStatus exitFile with
    | .error e =>
      if e = .processNotExited then
        match exitPipeOpen with
        | .error e2 => .error e2
        | .ok _ => .ok { p1 with exitPipe := true }
      else .error e
    | .ok _ => .ok p1

/-- Resources acquired by newProcess: the process.json file handle and
the exit and control pipes. -/
inductive Res where
  | procJsonFile
  | exitPipeRes
  | controlPipeRes
deriving DecidableEq

/-- Outcome of newProcess: the returned value, the resources acquired
during the call, and those released again before it returned. -/
structure NPOut where
  result : Except GoErr process
  opened : List Res
  released : List Res
deriving DecidableEq

/-- Embedding of newProcess with the outcome of each fallible step as an
oracle: getRootIDs, os.Create of process.json, the JSON encode of the
state record, getExitPipe and getControlPipe.  The deferred f.Close on
process.json runs on every path after the file was opened; nothing in
the source closes the exit pipe when getControlPipe fails. -/
def newProcess (root id : String) (rootIDs : Except GoErr (Int × Int))
    (createJson : Except GoErr Unit) (encodeState : Except GoErr Unit)
    (exitPipeOpen : Except GoErr Unit) (controlPipeOpen : Except GoErr Unit) : NPOut :=
  match rootIDs with
  | .error e => ⟨.error e, [], []⟩
  | .ok _ =>
    match createJson with
    | .error e => ⟨.error e, [], []⟩
    | .ok _ =>
      match encodeState with
      | .error e => ⟨.error e, [.procJsonFile], [.procJsonFile]⟩
      | .ok _ =>
        match exitPipeOpen with
        | .error e => ⟨.error e, [.procJsonFile], [.procJsonFile]⟩
        | .ok _ =>
          match controlPipeOpen with
          | .error e =>
            ⟨.error e, [.procJsonFile, .exitPipeRes], [.procJsonFile]⟩
          | .ok _ =>
            ⟨.ok ⟨root, id, 0, true, true⟩,
             [.procJsonFile, .exitPipeRes, .controlPipeRes], [.procJsonFile]⟩

/-- Modelled from the spec: the containerd-side container status
(containerd.Status is declared outside the two embedded files).  §3 and
§4.1 name four values — Created, Running, Stopped, Paused; `other`
stands for any status value outside those four, so that the defaultless
switch in Service.List can be given its Go meaning on such values. -/
inductive CStatus where
  | created
  | running
  | stopped
  | paused
  | other (n : Nat)
deriving DecidableEq

/-- Modelled from the spec: the API status enumeration
(api/types/container Status, declared outside the two embedded files);
§6 lists CREATED, RUNNING, STOPPED, PAUSED, with CREATED the protobuf
zero value. -/
inductive ApiStatus where
  | CREATED
  | RUNNING
  | STOPPED
  | PAUSED
deriving DecidableEq

/-- The Go zero value of the API status type, as left by
`var status container.Status` when no switch case assigns to it. -/
def statusZero : ApiStatus := .CREATED

/-- The defaultless switch in Service.List mapping a containerd status
to an API status; a status outside the four named cases leaves the
declared variable at its zero value. -/
def toApiStatus : CStatus → ApiStatus
  | .created => .CREATED
  | .running => .RUNNING
  | .stopped => .STOPPED
  | .paused => .PAUSED
  | .other _ => statusZero

/-- What a container's State(ctx) query reports: its pid and status. -/
structure ContState where
  pid : Nat
  status : CStatus
deriving DecidableEq

/-- A registered container as the service sees it: Info().ID,
Info().Runtime, and the outcome its State(ctx) query returns. -/
structure Container where
  id : String
  runtime : String
  state : Except GoErr ContState
deriving DecidableEq

/-- One entry of the ListResponse. -/
structure ApiContainer where
  id : String
  pid : Nat
  status : ApiStatus
deriving DecidableEq

/-- The execution Service: the registered runtime names (the runtime map
is populated once at startup) and the live-container map, an association
list standing for the Go map guarded by s.mu. -/
structure Service where
  runtimes : List String
  containers : List (String × Container)
deriving DecidableEq

/-- Embedding of Service.getContainer. -/
def Service.getContainer (s : Service) (id : String) : Except GoErr Container :=
  match s.containers.lookup id with
  | some c => .ok c
  | none => .error .containerNotExist

/-- Embedding of Service.getRuntime. -/
def Service.getRuntime (s : Service) (name : String) : Except GoErr String :=
  if name ∈ s.runtimes then .ok name else .error .unknownRuntime

/-- The steps of Service.Create relevant to lock scoping, in program
order: mutex operations, container-map operations, and the calls into
the runtime backend. -/
inductive CreateAction where
  | lock
  | unlock
  | mapCheck
  | backendCreate
  | mapInsert
  | stateQuery
  | mapDelete
  | backendDelete
deriving DecidableEq

/-- Outcome of Service.Create: the returned value, the service
afterwards, and the trace of lock/map/backend steps taken. -/
structure CreateOut where
  result : Except GoErr (String × Nat)
  service : Service
  actions : List CreateAction
deriving DecidableEq

/-- Embedding of Service.Create.  `backendCreate` is what
runtime.Create(ctx, id, opts) returns; the created container's own state
field is what the subsequent c.State(ctx) call reports; `backendDelete`
is the result of the compensating runtime.Delete, which the source
discards. -/
def Service.Create (s : Service) (id : String) (runtimeName : String)
    (backendCreate : Except GoErr Container) (backendDelete : Except GoErr Unit) :
    CreateOut :=
  match s.getRuntime runtimeName with
  | .error e => ⟨.error e, s, []⟩
  | .ok _ =>
    if (s.containers.lookup id).isSome then
      ⟨.error .containerExists, s, [.lock, .mapCheck, .unlock]⟩
    else
      match backendCreate with
      | .error e => ⟨.error e, s, [.lock, .mapCheck, .backendCreate, .unlock]⟩
      | .ok c =>
        let s1 : Service := { s with containers := (id, c) :: s.containers }
        match c.state with
        | .error e =>
          let s2 : Service :=
            { s1 with containers := s1.containers.filter (fun q => q.1 != id) }
          let _ := backendDelete
          ⟨.error e, s2,
           [.lock, .mapCheck, .backendCreate, .mapInsert, .unlock, .stateQuery,
            .lock, .mapDelete, .backendDelete, .unlock]⟩
        | .ok st =>
          ⟨.ok (id, st.pid), s1,
           [.lock, .mapCheck, .backendCreate, .mapInsert, .unlock, .stateQuery]⟩

/-- Embedding of Service.Delete: look the container up, resolve its
runtime by name, ask the backend to delete it (`backendDelete` is that
call's result) and return; the container map itself is never written. -/
def Service.Delete (s : Service) (id : String) (backendDelete : Except GoErr Unit) :
    Except GoErr Unit × Service :=
  match s.getContainer id with
  | .error e => (.error e, s)
  | .ok c =>
    match s.getRuntime c.runtime with
    | .error e => (.error e, s)
    | .ok _ =>
      match backendDelete with
      | .error e => (.error e, s)
      | .ok _ => (.ok (), s)

/-- The loop body of Service.List over the container map: query each
container's state, aborting the whole listing on the first failure,
otherwise appending an entry with the container's id, pid and mapped
status. -/
def listAux : List (String × Container) → Except GoErr (List ApiContainer)
  | [] => .ok []
  | (_, c) :: rest =>
    match c.state with
    | .error e => .error e
    | .ok st =>
      match listAux rest with
      | .error e => .error e
      | .ok l => .ok (⟨c.id, st.pid, toApiStatus st.status⟩ :: l)

/-- The response type of Service.List. -/
abbrev ApiContainers := List ApiContainer

/-- Embedding of Service.List: snapshot every registered container under
the lock, all-or-nothing. -/
def Service.List (s : Service) : Except GoErr ApiContainers :=
  listAux s.containers

/-- The mutex is held while action i of the trace executes: the first i
actions contain more lock acquisitions than releases. -/
def heldAt (tr : List CreateAction) (i : Nat) : Bool :=
  (tr.take i).count .lock > (tr.take i).count .unlock

/-- Each action of a trace paired with whether the mutex is held while
it executes. -/
def heldDuring (tr : List CreateAction) : List (CreateAction × Bool) :=
  tr.enum.map (fun p => (p.2, heldAt tr p.1))

/-- The action trace of Service.Create as a function of which branches
are taken: runtime known, identifier already present, backend create
succeeded, state query succeeded. -/
def createActions (rtOk present bcOk stOk : Bool) : List CreateAction :=
  if !rtOk then []
  else if present then [.lock, .mapCheck, .unlock]
  else if !bcOk then [.lock, .mapCheck, .backendCreate, .unlock]
  else if stOk then
    [.lock, .mapCheck, .backendCreate, .mapInsert, .unlock, .stateQuery]
  else
    [.lock, .mapCheck, .backendCreate, .mapInsert, .unlock, .stateQuery,
     .lock, .mapDelete, .backendDelete, .unlock]

/-- Whether the state query of the container a backend create returned
succeeded (false when the create itself failed). -/
def createStateOk : Except GoErr Container → Bool
  | .ok c => match c.state with | .ok _ => true | .error _ => false
  | .error _ => false

/-- Whether a backend create succeeded. -/
def createOk : Except GoErr Container → Bool
  | .ok _ => true
  | .error _ => false

/-- One non-absent iteration of the getPid loop: what it returns and what
the pid field becomes. -/
def pidStep (r : ReadRes) (pid0 : Int) : PidOut :=
  match r with
  | .absent => ⟨.error pidTimeoutErr, pid0, 0, 0⟩
  | .readErr m => ⟨.error (.errStr m), pid0, 1, 0⟩
  | .content s =>
    match atoi s with
    | some n => ⟨.ok n, n, 1, 0⟩
    | none => ⟨.error (.parseErr s), pid0, 1, 0⟩

theorem digitVal_digitChar : ∀ d : Nat, d < 10 → digitVal (digitChar d) = some d := by
  decide

theorem digitVal_dash : digitVal '-' = none := by decide

theorem digitVal_plus : digitVal '+' = none := by decide

theorem parseDigitsAux_append (l1 l2 : List Char) :
    ∀ acc, parseDigitsAux acc (l1 ++ l2) =
      (parseDigitsAux acc l1).bind (fun m => parseDigitsAux m l2) := by
  induction l1 with
  | nil => intro acc; simp [parseDigitsAux]
  | cons c cs ih =>
    intro acc
    simp only [List.cons_append, parseDigitsAux]
    cases h : digitVal c with
    | some d => simp [ih]
    | none => simp

theorem goNatReprAux_ne_nil : ∀ fuel n, n < fuel → goNatReprAux fuel n ≠ [] := by
  intro fuel n h
  cases fuel with
  | zero => omega
  | succ f =>
    simp only [goNatReprAux]
    by_cases h10 : n < 10
    · rw [if_pos h10]; simp
    · rw [if_neg h10]; simp

theorem goNatReprAux_digits : ∀ fuel n c, c ∈ goNatReprAux fuel n → (digitVal c).isSome := by
  intro fuel
  induction fuel with
  | zero => intro n c hc; simp [goNatReprAux] at hc
  | succ f ih =>
    intro n c hc
    simp only [goNatReprAux] at hc
    by_cases h10 : n < 10
    · rw [if_pos h10] at hc
      simp at hc
      subst hc
      simp [digitVal_digitChar n h10]
    · rw [if_neg h10] at hc
      rcases List.mem_append.mp hc with hc | hc
      · exact ih _ _ hc
      · simp at hc
        subst hc
        have : n % 10 < 10 := Nat.mod_lt _ (by norm_num)
        simp [digitVal_digitChar _ this]

theorem goNatRepr_digits (n : Nat) (c : Char) (h : c ∈ goNatRepr n) :
    (digitVal c).isSome := by
  rw [goNatRepr] at h
  exact goNatReprAux_digits _ _ _ h

theorem parseDigitsAux_goNatReprAux :
    ∀ fuel n, n < fuel → parseDigitsAux 0 (goNatReprAux fuel n) = some n := by
  intro fuel
  induction fuel with
  | zero => intro n h; omega
  | succ f ih =>
    intro n h
    simp only [goNatReprAux]
    by_cases h10 : n < 10
    · rw [if_pos h10]
      simp [parseDigitsAux, digitVal_digitChar n h10]
    · have hdiv : n / 10 < f := by
        have h1 : n / 10 < n := Nat.div_lt_self (by omega) (by norm_num)
        omega
      rw [if_neg h10, parseDigitsAux_append, ih _ hdiv, Option.some_bind]
      have hm : n % 10 < 10 := Nat.mod_lt _ (by norm_num)
      simp [parseDigitsAux, digitVal_digitChar _ hm]
      omega

theorem parseDigits_goNatRepr (n : Nat) : parseDigits (goNatRepr n) = some n := by
  unfold parseDigits goNatRepr
  rw [if_neg (goNatReprAux_ne_nil _ _ (Nat.lt_succ_self n))]
  exact parseDigitsAux_goNatReprAux _ _ (Nat.lt_succ_self n)

theorem atoi_goItoa : ∀ i : Int, atoi (goItoa i) = some i := by
  intro i
  cases i with
  | ofNat n =>
    show atoi ⟨goNatRepr n⟩ = some (Int.ofNat n)
    rcases h : goNatRepr n with _ | ⟨c, rest⟩
    · exact absurd h (goNatReprAux_ne_nil _ _ (Nat.lt_succ_self n))
    · have hmem : c ∈ goNatRepr n := by rw [h]; exact List.mem_cons_self _ _
      have hdig : (digitVal c).isSome := goNatRepr_digits n c hmem
      have hdash : c ≠ '-' := by
        intro hc; rw [hc, digitVal_dash] at hdig; simp at hdig
      have hplus : c ≠ '+' := by
        intro hc; rw [hc, digitVal_plus] at hdig; simp at hdig
      have hpd : parseDigits (c :: rest) = some n := by
        rw [← h]; exact parseDigits_goNatRepr n
      simp [atoi, if_neg hdash, if_neg hplus, hpd, Int.ofNat_eq_coe]
  | negSucc m =>
    show atoi ⟨'-' :: goNatRepr (m + 1)⟩ = some (Int.negSucc m)
    simp only [atoi, if_pos rfl]
    rw [parseDigits_goNatRepr]
    simp [Int.negSucc_eq]

theorem getPidAux_readsMade_le (reads : Nat → ReadRes) (pid0 : Int) :
    ∀ fuel i, (getPidAux reads pid0 i fuel).readsMade ≤ fuel := by
  intro fuel
  induction fuel with
  | zero => intro i; simp [getPidAux]
  | succ f ih =>
    intro i
    simp only [getPidAux]
    cases hr : reads i with
    | absent => simpa using Nat.succ_le_succ (ih (i + 1))
    | readErr m => simp
    | content s => cases ha : atoi s <;> simp [ha]

theorem getPidAux_all_absent (reads : Nat → ReadRes) (pid0 : Int) :
    ∀ fuel i, (∀ k, k < fuel → reads (i + k) = .absent) →
      getPidAux reads pid0 i fuel = ⟨.error pidTimeoutErr, pid0, fuel, fuel⟩ := by
  intro fuel
  induction fuel with
  | zero => intro i _; rfl
  | succ f ih =>
    intro i h
    have h0 : reads i = .absent := by
      have := h 0 (Nat.succ_pos f); rwa [Nat.add_zero] at this
    simp only [getPidAux, h0]
    rw [ih (i + 1) (fun k hk => by
      have := h (k + 1) (by omega)
      rwa [show i + (k + 1) = i + 1 + k by omega] at this)]

theorem getPidAux_first (reads : Nat → ReadRes) (pid0 : Int) :
    ∀ j fuel i, j < fuel → (∀ k, k < j → reads (i + k) = .absent) →
      reads (i + j) ≠ .absent →
      getPidAux reads pid0 i fuel =
        ⟨(pidStep (reads (i + j)) pid0).result, (pidStep (reads (i + j)) pid0).pid,
         j + 1, j⟩ := by
  intro j
  induction j with
  | zero =>
    intro fuel i hj habs hne
    cases fuel with
    | zero => omega
    | succ f =>
      rw [Nat.add_zero] at hne ⊢
      simp only [getPidAux]
      cases hr : reads i with
      | absent => exact absurd hr hne
      | readErr m => simp [pidStep, hr]
      | content s => cases ha : atoi s <;> simp [pidStep, hr, ha]
  | succ j ih =>
    intro fuel i hj habs hne
    cases fuel with
    | zero => omega
    | succ f =>
      have h0 : reads i = .absent := by
        have := habs 0 (Nat.succ_pos j); rwa [Nat.add_zero] at this
      simp only [getPidAux, h0]
      have ihh := ih f (i + 1) (by omega)
        (fun k hk => by
          have := habs (k + 1) (by omega)
          rwa [show i + (k + 1) = i + 1 + k by omega] at this)
        (by rwa [show i + 1 + j = i + (j + 1) by omega])
      rw [ihh]
      simp [show i + 1 + j = i + (j + 1) by omega]

/-- C5: pid discovery reads the pid artifact at most 20 times, pausing
100 ms after each read that found it absent; an absent file is retried,
a read error or unparsable content is immediately fatal, a successful
parse returns exactly the parsed integer and records it as the
supervisor's pid, and 20 absent reads yield the timeout error, which is
distinct from the malformed-content error and from the not-yet-exited
condition. -/
theorem getPid_spec (p : process) (reads : Nat → ReadRes) :
    ((p.getPid reads).readsMade ≤ 20) ∧
    pidSleepMs = 100 ∧
    ((∀ k, k < 20 → reads k = .absent) →
      p.getPid reads = ⟨.error pidTimeoutErr, p.pid, 20, 20⟩) ∧
    (∀ j, j < 20 → (∀ k, k < j → reads k = .absent) →
      ((∀ s n, reads j = .content s → atoi s = some n →
        p.getPid reads = ⟨.ok n, n, j + 1, j⟩) ∧
       (∀ s, reads j = .content s → atoi s = none →
        p.getPid reads = ⟨.error (.parseErr s), p.pid, j + 1, j⟩) ∧
       (∀ m, reads j = .readErr m →
        p.getPid reads = ⟨.error (.errStr m), p.pid, j + 1, j⟩))) ∧
    (∀ s, pidTimeoutErr ≠ GoErr.parseErr s) ∧
    pidTimeoutErr ≠ GoErr.processNotExited := by
  refine ⟨getPidAux_readsMade_le reads p.pid 20 0, rfl, ?_, ?_, ?_, ?_⟩
  · intro h
    exact getPidAux_all_absent reads p.pid 20 0 (fun k hk => by
      have := h k hk; rwa [Nat.zero_add])
  · intro j hj habs
    have habs0 : ∀ k, k < j → reads (0 + k) = .absent := fun k hk => by
      rw [Nat.zero_add]; exact habs k hk
    refine ⟨?_, ?_, ?_⟩
    · intro s n hs ha
      have hne : reads (0 + j) ≠ .absent := by rw [Nat.zero_add, hs]; simp
      have := getPidAux_first reads p.pid j 20 0 hj habs0 hne
      rw [Nat.zero_add, hs] at this
      simpa [pidStep, ha] using this
    · intro s hs ha
      have hne : reads (0 + j) ≠ .absent := by rw [Nat.zero_add, hs]; simp
      have := getPidAux_first reads p.pid j 20 0 hj habs0 hne
      rw [Nat.zero_add, hs] at this
      simpa [pidStep, ha] using this
    · intro m hs
      have hne : reads (0 + j) ≠ .absent := by rw [Nat.zero_add, hs]; simp
      have := getPidAux_first reads p.pid j 20 0 hj habs0 hne
      rw [Nat.zero_add, hs] at this
      simpa [pidStep] using this
  · intro s; simp [pidTimeoutErr]
  · simp [pidTimeoutErr]

/-- Witness for getPid_spec: three absent reads then a file containing
42 give pid 42 after four reads and three sleeps. -/
theorem getPid_spec_witness :
    process.getPid ⟨"/run/c1", "init", 0, false, false⟩
      (fun k => if k < 3 then ReadRes.absent else ReadRes.content "42") =
      ⟨.ok 42, 42, 4, 3⟩ := by
  have h := getPid_spec ⟨"/run/c1", "init", 0, false, false⟩
    (fun k => if k < 3 then ReadRes.absent else ReadRes.content "42")
  exact (h.2.2.2.1 3 (by decide) (by decide)).1 "42" 42 (by decide) (by decide)

/-- C6: ExitStatus reports the distinguished not-yet-exited condition
exactly when the exit-status artifact is absent or empty; a file holding
a decimal integer yields exactly that integer with no error; unreadable
or non-numeric contents yield errors distinct from not-yet-exited. -/
theorem exitStatus_spec (p : process) :
    (∀ r : ReadRes,
      p.ExitStatus r = .error .processNotExited ↔ (r = .absent ∨ r = .content "")) ∧
    (∀ s n, atoi s = some n → p.ExitStatus (.content s) = .ok n) ∧
    (∀ s, s ≠ "" → atoi s = none →
      p.ExitStatus (.content s) = .error (.parseErr s)) ∧
    (∀ m, p.ExitStatus (.readErr m) = .error (.errStr m) ∧
      GoErr.errStr m ≠ .processNotExited) := by
  refine ⟨?_, ?_, ?_, ?_⟩
  · intro r
    cases r with
    | absent => simp [process.ExitStatus]
    | readErr m => simp [process.ExitStatus]
    | content s =>
      by_cases hs : s = ""
      · subst hs; simp [process.ExitStatus]
      · simp only [process.ExitStatus, if_neg hs]
        cases ha : atoi s with
        | some n => simp [hs]
        | none => simp [hs]
  · intro s n ha
    have hs : s ≠ "" := by
      intro h; subst h
      rw [show atoi "" = none from rfl] at ha
      exact Option.noConfusion ha
    simp [process.ExitStatus, if_neg hs, ha]
  · intro s hs ha
    simp [process.ExitStatus, if_neg hs, ha]
  · intro m
    exact ⟨rfl, by simp⟩

/-- Witness for exitStatus_spec: an absent artifact is the not-yet-exited
condition; contents 137 give exit status 137. -/
theorem exitStatus_spec_witness :
    (process.ExitStatus ⟨"/run/c1", "init", 0, false, false⟩ .absent =
      .error .processNotExited) ∧
    (process.ExitStatus ⟨"/run/c1", "init", 0, false, false⟩ (.content "137") =
      .ok 137) := by
  have h := exitStatus_spec ⟨"/run/c1", "init", 0, false, false⟩
  exact ⟨(h.1 .absent).mpr (Or.inl rfl), h.2.1 "137" 137 (by decide)⟩

/-- C9: Resize(w, h) writes exactly the line "1 <w> <h>\n" on the control
channel, the two fields being the decimal renderings of w and h (they
parse back, by Atoi, to exactly w and h); Resize 80 24 writes exactly
"1 80 24\n", and CloseStdin writes exactly "0 0 0\n". -/
theorem control_protocol_spec (p : process) :
    (∀ w h : Int, p.Resize w h = "1 " ++ goItoa w ++ " " ++ goItoa h ++ "\n" ∧
      atoi (goItoa w) = some w ∧ atoi (goItoa h) = some h) ∧
    p.Resize 80 24 = "1 80 24\n" ∧
    p.CloseStdin = "0 0 0\n" := by
  refine ⟨fun w h => ⟨?_, atoi_goItoa w, atoi_goItoa h⟩, rfl, rfl⟩
  show goItoa 1 ++ " " ++ goItoa w ++ " " ++ goItoa h ++ "\n" =
    "1 " ++ goItoa w ++ " " ++ goItoa h ++ "\n"
  rfl

/-- Witness for control_protocol_spec: a resize to minus-3 by 7 writes
the line with the signed decimal fields, which parse back to -3 and 7. -/
theorem control_protocol_spec_witness :
    (process.Resize ⟨"/run/c1", "init", 0, true, true⟩ (-3) 7 =
      "1 " ++ goItoa (-3) ++ " " ++ goItoa 7 ++ "\n") ∧
    atoi (goItoa (-3)) = some (-3) ∧ atoi (goItoa 7) = some 7 ∧
    process.CloseStdin ⟨"/run/c1", "init", 0, true, true⟩ = "0 0 0\n" := by
  have h := control_protocol_spec ⟨"/run/c1", "init", 0, true, true⟩
  exact ⟨(h.1 (-3) 7).1, (h.1 (-3) 7).2.1, (h.1 (-3) 7).2.2, h.2.2⟩

/-- C7: reconstruction from durable artifacts fails when pid discovery
fails; with the pid discovered, an already-exited status makes it
succeed without opening an exit pipe, a not-yet-exited status makes it
succeed exactly when reopening the exit pipe succeeds (the pipe then
being held), and any other exit-status failure is fatal. -/
theorem loadProcess_spec (root id : String) (pidReads : Nat → ReadRes)
    (exitFile : ReadRes) (pipeR : Except GoErr Unit) :
    (∀ e, (process.getPid ⟨root, id, 0, false, false⟩ pidReads).result = .error e →
      loadProcess root id pidReads exitFile pipeR = .error e) ∧
    (∀ n, (process.getPid ⟨root, id, 0, false, false⟩ pidReads).result = .ok n →
      ((∀ m, process.ExitStatus ⟨root, id, 0, false, false⟩ exitFile = .ok m →
        loadProcess root id pidReads exitFile pipeR =
          .ok ⟨root, id, (process.getPid ⟨root, id, 0, false, false⟩ pidReads).pid,
               false, false⟩) ∧
       (process.ExitStatus ⟨root, id, 0, false, false⟩ exitFile =
          .error .processNotExited →
        ((pipeR = .ok () →
          loadProcess root id pidReads exitFile pipeR =
            .ok ⟨root, id, (process.getPid ⟨root, id, 0, false, false⟩ pidReads).pid,
                 true, false⟩) ∧
         (∀ e2, pipeR = .error e2 →
          loadProcess root id pidReads exitFile pipeR = .error e2))) ∧
       (∀ e, process.ExitStatus ⟨root, id, 0, false, false⟩ exitFile = .error e →
        e ≠ .processNotExited →
        loadProcess root id pidReads exitFile pipeR = .error e))) := by
  constructor
  · intro e he
    simp only [loadProcess, he]
  · intro n hn
    refine ⟨?_, ?_, ?_⟩
    · intro m hm
      simp only [process.ExitStatus] at hm
      simp only [loadProcess, hn, process.ExitStatus, hm]
    · intro hne
      simp only [process.ExitStatus] at hne
      constructor
      · intro hp
        simp only [loadProcess, hn, process.ExitStatus, hne, hp]
        simp
      · intro e2 hp
        simp only [loadProcess, hn, process.ExitStatus, hne, hp]
        simp
    · intro e he hne
      simp only [process.ExitStatus] at he
      simp only [loadProcess, hn, process.ExitStatus, he]
      simp [hne]

/-- Witness for loadProcess_spec: pid artifact immediately readable as 7
and no exit-status artifact yet; reconstruction reopens the exit pipe
and succeeds with pid 7. -/
theorem loadProcess_spec_witness :
    loadProcess "/run/c1" "init" (fun _ => ReadRes.content "7") ReadRes.absent (.ok ()) =
      .ok ⟨"/run/c1", "init", 7, true, false⟩ := by
  have h := loadProcess_spec "/run/c1" "init" (fun _ => ReadRes.content "7")
    ReadRes.absent (.ok ())
  exact ((h.2 7 (by decide)).2.1 (by decide)).1 rfl

/-- C4 at the failing input: when getControlPipe fails after the exit
pipe was opened, newProcess returns the error with the exit pipe left
acquired and unreleased — only the deferred close of process.json ran. -/
theorem newProcess_control_failure_leaks_exit_pipe :
    (newProcess "/run/c1" "init" (.ok (0, 0)) (.ok ()) (.ok ()) (.ok ())
      (.error (.errStr "open control pipe failed"))).result =
      .error (.errStr "open control pipe failed") ∧
    Res.exitPipeRes ∈ (newProcess "/run/c1" "init" (.ok (0, 0)) (.ok ()) (.ok ()) (.ok ())
      (.error (.errStr "open control pipe failed"))).opened ∧
    Res.exitPipeRes ∉ (newProcess "/run/c1" "init" (.ok (0, 0)) (.ok ()) (.ok ()) (.ok ())
      (.error (.errStr "open control pipe failed"))).released := by
  decide

theorem lookup_mem (id : String) :
    ∀ (l : List (String × Container)) (c : Container), l.lookup id = some c → (id, c) ∈ l := by
  intro l
  induction l with
  | nil => intro c h; exact Option.noConfusion h
  | cons p rest ih =>
    obtain ⟨k, v⟩ := p
    intro c h
    simp only [List.lookup] at h
    cases hb : (id == k) with
    | true =>
      rw [hb] at h
      injection h with h2
      have hk : id = k := eq_of_beq hb
      subst hk
      subst h2
      exact List.mem_cons_self _ _
    | false =>
      rw [hb] at h
      exact List.mem_cons_of_mem _ (ih c h)

theorem filter_ne_of_lookup_none (id : String) :
    ∀ l : List (String × Container), l.lookup id = none →
      l.filter (fun q => q.1 != id) = l := by
  intro l
  induction l with
  | nil => intro _; rfl
  | cons p rest ih =>
    obtain ⟨k, v⟩ := p
    intro h
    simp only [List.lookup] at h
    cases hb : (id == k) with
    | true => rw [hb] at h; exact Option.noConfusion h
    | false =>
      rw [hb] at h
      have hne : ((k, v).1 != id) = true := by
        simp only [bne_iff_ne, ne_eq]
        intro he
        rw [he] at hb
        simp at hb
      simp only [List.filter, hne, ih h]

theorem listAux_ok_mem :
    ∀ (cs : List (String × Container)) (l : List ApiContainer), listAux cs = .ok l →
      ∀ kc ∈ cs, ∃ st, kc.2.state = .ok st ∧
        (⟨kc.2.id, st.pid, toApiStatus st.status⟩ : ApiContainer) ∈ l := by
  intro cs
  induction cs with
  | nil => intro l _ kc hkc; exact absurd hkc (List.not_mem_nil kc)
  | cons p rest ih =>
    obtain ⟨k, c⟩ := p
    intro l hl kc hkc
    simp only [listAux] at hl
    cases hc : c.state with
    | error e => rw [hc] at hl; exact Except.noConfusion hl
    | ok st =>
      rw [hc] at hl
      cases hr : listAux rest with
      | error e => rw [hr] at hl; exact Except.noConfusion hl
      | ok l2 =>
        rw [hr] at hl
        injection hl with hl2
        rcases List.mem_cons.mp hkc with h | h
        · subst h
          exact ⟨st, hc, by rw [← hl2]; exact List.mem_cons_self _ _⟩
        · obtain ⟨st2, hst2, hmem⟩ := ih l2 hr kc h
          exact ⟨st2, hst2, by rw [← hl2]; exact List.mem_cons_of_mem _ hmem⟩

theorem listAux_ok_of_all_ok :
    ∀ cs : List (String × Container), (∀ kc ∈ cs, ∃ st, kc.2.state = Except.ok st) →
      ∃ l, listAux cs = .ok l ∧ l.length = cs.length := by
  intro cs
  induction cs with
  | nil => intro _; exact ⟨[], rfl, rfl⟩
  | cons p rest ih =>
    obtain ⟨k, c⟩ := p
    intro h
    obtain ⟨st, hst⟩ := h (k, c) (List.mem_cons_self _ _)
    obtain ⟨l2, hl2, hlen⟩ := ih (fun kc hkc => h kc (List.mem_cons_of_mem _ hkc))
    refine ⟨⟨c.id, st.pid, toApiStatus st.status⟩ :: l2, ?_, by simp [hlen]⟩
    simp only [listAux]
    rw [show c.state = Except.ok st from hst, hl2]

theorem listAux_error_of_mem :
    ∀ cs : List (String × Container), (∃ kc ∈ cs, ∃ e, kc.2.state = .error e) →
      ∃ e, listAux cs = .error e ∧ ∃ kc ∈ cs, kc.2.state = .error e := by
  intro cs
  induction cs with
  | nil =>
    rintro ⟨kc, h, _⟩
    exact absurd h (List.not_mem_nil kc)
  | cons p rest ih =>
    obtain ⟨k, c⟩ := p
    rintro ⟨kc, hkc, e, he⟩
    cases hc : c.state with
    | error e0 =>
      refine ⟨e0, ?_, (k, c), List.mem_cons_self _ _, hc⟩
      simp only [listAux]
      rw [hc]
    | ok st =>
      have hrest : ∃ kc ∈ rest, ∃ e, kc.2.state = .error e := by
        rcases List.mem_cons.mp hkc with h | h
        · subst h
          rw [hc] at he
          exact Except.noConfusion he
        · exact ⟨kc, h, e, he⟩
      obtain ⟨e2, he2, kc2, hkc2, hst2⟩ := ih hrest
      refine ⟨e2, ?_, kc2, List.mem_cons_of_mem _ hkc2, hst2⟩
      simp only [listAux]
      rw [hc, he2]

theorem delete_service_unchanged (s : Service) (id : String) (bd : Except GoErr Unit) :
    (Service.Delete s id bd).2 = s := by
  unfold Service.Delete Service.getContainer Service.getRuntime
  cases h : s.containers.lookup id with
  | none => rfl
  | some c =>
    dsimp only
    by_cases hr : c.runtime ∈ s.runtimes
    · rw [if_pos hr]
      cases bd <;> rfl
    · rw [if_neg hr]

theorem delete_ok_lookup (s : Service) (id : String) (bd : Except GoErr Unit)
    (hok : (Service.Delete s id bd).1 = .ok ()) :
    (s.containers.lookup id).isSome := by
  unfold Service.Delete Service.getContainer at hok
  cases h : s.containers.lookup id with
  | none => rw [h] at hok; simp at hok
  | some c => rfl

theorem create_actions_eq (s : Service) (id rn : String)
    (bc : Except GoErr Container) (bd : Except GoErr Unit) :
    (Service.Create s id rn bc bd).actions =
      createActions (decide (rn ∈ s.runtimes)) ((s.containers.lookup id).isSome)
        (createOk bc) (createStateOk bc) := by
  unfold Service.Create Service.getRuntime createActions createOk createStateOk
  by_cases hrt : rn ∈ s.runtimes
  · rw [if_pos hrt, decide_eq_true hrt]
    dsimp only
    by_cases hid : (s.containers.lookup id).isSome
    · rw [if_pos hid, hid]
      rfl
    · rw [if_neg hid, eq_false_of_ne_true hid]
      cases bc with
      | error e => rfl
      | ok c =>
        dsimp only
        cases hc : c.state with
        | error e => rfl
        | ok st => rfl
  · rw [if_neg hrt, decide_eq_false hrt]
    rfl

theorem createActions_locked (a b c d : Bool) :
    ∀ p ∈ heldDuring (createActions a b c d),
      (p.1 = CreateAction.backendCreate ∨ p.1 = CreateAction.backendDelete ∨
       p.1 = CreateAction.mapCheck ∨ p.1 = CreateAction.mapInsert ∨
       p.1 = CreateAction.mapDelete) → p.2 = true := by
  revert a b c d
  decide

/-- C1 amended: in Create the registry lock is acquired before the
existence check and held across the backend's Create call and the
registration; in the state-query-failure path it is re-acquired and held
across the unregistration and the compensating backend Delete — so every
map mutation, but also every backend call made by Create, executes with
the lock held. -/
theorem create_lock_scope (s : Service) (id rn : String) (bc : Except GoErr Container)
    (bd : Except GoErr Unit) :
    ∀ p ∈ heldDuring (Service.Create s id rn bc bd).actions,
      (p.1 = CreateAction.backendCreate ∨ p.1 = CreateAction.backendDelete ∨
       p.1 = CreateAction.mapCheck ∨ p.1 = CreateAction.mapInsert ∨
       p.1 = CreateAction.mapDelete) → p.2 = true := by
  rw [create_actions_eq]
  exact createActions_locked _ _ _ _

/-- Witness for create_lock_scope: in a concrete successful Create the
backend create step is in the trace, and the theorem instantiated at it
yields that the lock is held there. -/
theorem create_lock_scope_witness :
    (CreateAction.backendCreate, true) ∈ heldDuring (Service.Create ⟨["linux"], []⟩ "c1"
      "linux" (.ok ⟨"c1", "linux", .ok ⟨7, .created⟩⟩) (.ok ())).actions ∧
    ((CreateAction.backendCreate, true) : CreateAction × Bool).2 = true := by
  refine ⟨by decide, ?_⟩
  exact create_lock_scope ⟨["linux"], []⟩ "c1" "linux"
    (.ok ⟨"c1", "linux", .ok ⟨7, .created⟩⟩) (.ok ()) (CreateAction.backendCreate, true)
    (by decide) (Or.inl rfl)

/-- C1 counterexample: in a Create that registers a fresh container the
backend's Create call executes while the registry lock is held — it is
in the trace as lock-held, and never appears as lock-free. -/
theorem create_backend_outside_lock_cex :
    (CreateAction.backendCreate, true) ∈ heldDuring (Service.Create ⟨["linux"], []⟩ "c1"
      "linux" (.ok ⟨"c1", "linux", .ok ⟨7, .created⟩⟩) (.ok ())).actions ∧
    (CreateAction.backendCreate, false) ∉ heldDuring (Service.Create ⟨["linux"], []⟩ "c1"
      "linux" (.ok ⟨"c1", "linux", .ok ⟨7, .created⟩⟩) (.ok ())).actions := by
  decide

/-- C2 amended: Delete never writes the container map — the service after
Delete(id) is the service it started with — and a successful Delete(id)
implies the identifier is still registered, so a subsequent List whose
state queries succeed still includes that container's entry. -/
theorem delete_leaves_registry (s : Service) (id : String) (bd : Except GoErr Unit) :
    (Service.Delete s id bd).2 = s ∧
    ((Service.Delete s id bd).1 = .ok () → (s.containers.lookup id).isSome) ∧
    (∀ c, s.containers.lookup id = some c → ∀ l, Service.List s = .ok l →
      ∃ st, c.state = .ok st ∧
        (⟨c.id, st.pid, toApiStatus st.status⟩ : ApiContainer) ∈ l) := by
  refine ⟨delete_service_unchanged s id bd, delete_ok_lookup s id bd, ?_⟩
  intro c hc l hl
  obtain ⟨st, hst, hmem⟩ :=
    listAux_ok_mem s.containers l hl (id, c) (lookup_mem id s.containers c hc)
  exact ⟨st, hst, hmem⟩

/-- Witness for delete_leaves_registry: deleting the only container
leaves the registry intact and its entry still listed. -/
theorem delete_leaves_registry_witness :
    (Service.Delete ⟨["linux"], [("c1", ⟨"c1", "linux", .ok ⟨1234, .created⟩⟩)]⟩ "c1"
      (.ok ())).2 = ⟨["linux"], [("c1", ⟨"c1", "linux", .ok ⟨1234, .created⟩⟩)]⟩ ∧
    (([("c1", (⟨"c1", "linux", .ok ⟨1234, .created⟩⟩ : Container))]).lookup "c1").isSome ∧
    (⟨"c1", 1234, ApiStatus.CREATED⟩ : ApiContainer) ∈
      [(⟨"c1", 1234, ApiStatus.CREATED⟩ : ApiContainer)] := by
  have h := delete_leaves_registry
    ⟨["linux"], [("c1", ⟨"c1", "linux", .ok ⟨1234, .created⟩⟩)]⟩ "c1" (.ok ())
  refine ⟨h.1, h.2.1 (by decide), ?_⟩
  obtain ⟨st, hst, hmem⟩ := h.2.2 ⟨"c1", "linux", .ok ⟨1234, .created⟩⟩ (by decide)
    [⟨"c1", 1234, ApiStatus.CREATED⟩] (by decide)
  have h2 : Except.ok (⟨1234, CStatus.created⟩ : ContState) = Except.ok st := hst
  injection h2 with h3
  rw [← h3] at hmem
  exact hmem

/-- C2 counterexample: Delete("c1") succeeds against the backend, yet a
subsequent List still includes c1 — the identifier stays reachable
through the registry. -/
theorem delete_then_list_cex :
    (Service.Delete ⟨["linux"], [("c1", ⟨"c1", "linux", .ok ⟨1234, .created⟩⟩)]⟩ "c1"
      (.ok ())).1 = .ok () ∧
    Service.List (Service.Delete ⟨["linux"], [("c1", ⟨"c1", "linux",
      .ok ⟨1234, .created⟩⟩)]⟩ "c1" (.ok ())).2 =
      .ok [⟨"c1", 1234, .CREATED⟩] := by
  decide

/-- C3: when the state query of the just-created container fails after
successful backend creation and registration, Create removes the entry
for the identifier again, performs the compensating backend delete, and
returns the original state-query error whatever the compensating delete
returned — that delete's own outcome is discarded. -/
theorem create_state_failure_compensates (s : Service) (id rn : String) (c : Container)
    (e : GoErr) (bd : Except GoErr Unit) (hrt : rn ∈ s.runtimes)
    (hid : s.containers.lookup id = none) (hst : c.state = .error e) :
    (Service.Create s id rn (.ok c) bd).result = .error e ∧
    (Service.Create s id rn (.ok c) bd).service.containers = s.containers ∧
    CreateAction.mapInsert ∈ (Service.Create s id rn (.ok c) bd).actions ∧
    CreateAction.mapDelete ∈ (Service.Create s id rn (.ok c) bd).actions ∧
    CreateAction.backendDelete ∈ (Service.Create s id rn (.ok c) bd).actions := by
  have hfil : ((id, c) :: s.containers).filter (fun q => q.1 != id) = s.containers := by
    have hhd : (((id, c) : String × Container).1 != id) = false := by simp
    simp only [List.filter, hhd]
    exact filter_ne_of_lookup_none id s.containers hid
  have hC : Service.Create s id rn (.ok c) bd =
      ⟨.error e, ⟨s.runtimes, s.containers⟩,
       [.lock, .mapCheck, .backendCreate, .mapInsert, .unlock, .stateQuery,
        .lock, .mapDelete, .backendDelete, .unlock]⟩ := by
    unfold Service.Create Service.getRuntime
    rw [if_pos hrt]
    dsimp only
    rw [hid]
    dsimp only [Option.isSome_none]
    rw [if_neg (by simp : ¬ (false = true))]
    rw [hst]
    dsimp only
    rw [hfil]
  rw [hC]
  exact ⟨rfl, rfl, by simp, by simp, by simp⟩

/-- Witness for create_state_failure_compensates: a concrete Create whose
container reports a failed state query returns that error, leaves the
registry as it was, and its trace contains the compensation steps. -/
theorem create_state_failure_compensates_witness :
    (Service.Create ⟨["linux"], []⟩ "c1" "linux"
      (.ok ⟨"c1", "linux", .error (.errStr "state query failed")⟩)
      (.error (.errStr "delete also failed"))).result =
      .error (.errStr "state query failed") ∧
    (Service.Create ⟨["linux"], []⟩ "c1" "linux"
      (.ok ⟨"c1", "linux", .error (.errStr "state query failed")⟩)
      (.error (.errStr "delete also failed"))).service.containers = [] ∧
    CreateAction.backendDelete ∈ (Service.Create ⟨["linux"], []⟩ "c1" "linux"
      (.ok ⟨"c1", "linux", .error (.errStr "state query failed")⟩)
      (.error (.errStr "delete also failed"))).actions := by
  have h := create_state_failure_compensates ⟨["linux"], []⟩ "c1" "linux"
    ⟨"c1", "linux", .error (.errStr "state query failed")⟩ (.errStr "state query failed")
    (.error (.errStr "delete also failed")) (by decide) (by decide) (by decide)
  exact ⟨h.1, h.2.1, h.2.2.2.2⟩

/-- C8: List is all-or-nothing: when every registered container's state
query succeeds it returns one entry per registered container, containing
each one's identifier, pid and mapped status; when any state query fails
it returns a state-query error of some registered container — and no
entries at all. -/
theorem list_all_or_nothing (s : Service) :
    ((∀ kc ∈ s.containers, ∃ st, kc.2.state = Except.ok st) →
      ∃ l, Service.List s = .ok l ∧ l.length = s.containers.length ∧
        ∀ kc ∈ s.containers, ∀ st, kc.2.state = .ok st →
          (⟨kc.2.id, st.pid, toApiStatus st.status⟩ : ApiContainer) ∈ l) ∧
    ((∃ kc ∈ s.containers, ∃ e, kc.2.state = .error e) →
      ∃ e, Service.List s = .error e ∧ ∃ kc ∈ s.containers, kc.2.state = .error e) := by
  constructor
  · intro h
    obtain ⟨l, hl, hlen⟩ := listAux_ok_of_all_ok s.containers h
    refine ⟨l, hl, hlen, ?_⟩
    intro kc hkc st hst
    obtain ⟨st2, hst2, hmem⟩ := listAux_ok_mem s.containers l hl kc hkc
    rw [hst] at hst2
    injection hst2 with h2
    rw [h2]
    exact hmem
  · exact listAux_error_of_mem s.containers

/-- Witness for list_all_or_nothing: a one-container registry with a
successful state query lists exactly that container. -/
theorem list_all_or_nothing_witness :
    Service.List ⟨["linux"], [("c1", ⟨"c1", "linux", .ok ⟨1234, .created⟩⟩)]⟩ =
      .ok [⟨"c1", 1234, ApiStatus.CREATED⟩] ∧
    (⟨"c1", 1234, ApiStatus.CREATED⟩ : ApiContainer) ∈
      [(⟨"c1", 1234, ApiStatus.CREATED⟩ : ApiContainer)] := by
  have h := (list_all_or_nothing
    ⟨["linux"], [("c1", ⟨"c1", "linux", .ok ⟨1234, .created⟩⟩)]⟩).1 (by
      intro kc hkc
      rcases List.mem_singleton.mp hkc with rfl
      exact ⟨⟨1234, .created⟩, rfl⟩)
  obtain ⟨l, hl, hlen, hmem⟩ := h
  have hd : Service.List ⟨["linux"], [("c1", ⟨"c1", "linux", .ok ⟨1234, .created⟩⟩)]⟩ =
      .ok [⟨"c1", 1234, ApiStatus.CREATED⟩] := by decide
  refine ⟨hd, ?_⟩
  have hl2 : l = [⟨"c1", 1234, ApiStatus.CREATED⟩] := by
    rw [hd] at hl
    injection hl with h3
    exact h3.symm
  rw [← hl2]
  exact hmem ("c1", ⟨"c1", "linux", .ok ⟨1234, .created⟩⟩) (List.mem_singleton.mpr rfl)
    ⟨1234, .created⟩ rfl

/-- C10: the switch in List maps the four named statuses to CREATED,
RUNNING, STOPPED and PAUSED; it has no default branch, so any other
status leaves the declared variable at the zero value CREATED, and a
listed container with such a status appears with API status CREATED. -/
theorem list_status_mapping :
    toApiStatus .created = .CREATED ∧ toApiStatus .running = .RUNNING ∧
    toApiStatus .stopped = .STOPPED ∧ toApiStatus .paused = .PAUSED ∧
    statusZero = .CREATED ∧
    (∀ n, toApiStatus (.other n) = .CREATED) ∧
    (∀ (s : Service) (kc : String × Container) (st : ContState) (l : List ApiContainer),
      kc ∈ s.containers → kc.2.state = .ok st → Service.List s = .ok l →
      (⟨kc.2.id, st.pid, toApiStatus st.status⟩ : ApiContainer) ∈ l) := by
  refine ⟨rfl, rfl, rfl, rfl, rfl, fun _ => rfl, ?_⟩
  intro s kc st l hkc hst hl
  obtain ⟨st2, hst2, hmem⟩ := listAux_ok_mem s.containers l hl kc hkc
  rw [hst] at hst2
  injection hst2 with h2
  rw [h2]
  exact hmem

/-- Witness for list_status_mapping: a container whose state query
reports a status outside the four named ones is listed with CREATED. -/
theorem list_status_mapping_witness :
    (⟨"c9", 9, ApiStatus.CREATED⟩ : ApiContainer) ∈
      [(⟨"c9", 9, ApiStatus.CREATED⟩ : ApiContainer)] := by
  have h := list_status_mapping
  have hmem := h.2.2.2.2.2.2 ⟨["linux"], [("c9", ⟨"c9", "linux", .ok ⟨9, .other 5⟩⟩)]⟩
    ("c9", ⟨"c9", "linux", .ok ⟨9, .other 5⟩⟩) ⟨9, .other 5⟩
    [⟨"c9", 9, ApiStatus.CREATED⟩] (by decide) rfl (by decide)
  exact hmem
